import Mathlib

set_option autoImplicit false

/-!
# Verification of the rclone-backup-manager orchestration core

Shallow embedding of the backup orchestration core of the
`rclone-backup-manager` repository (current revision: the `src/` package,
modules `src/core/state_manager.py`, `src/core/rclone_runner.py`,
`src/core/backup_manager.py`), together with proofs about the claims the
specification makes of it.

Python floats that are only stored (durations) are modelled as `Rat`;
percent values, which are always integral in the code (`0.0`, `100.0`, or
`float` of a 1–3 digit token), are modelled as `Nat`.  Timestamps produced
by `datetime.now()` are modelled as opaque `String` inputs.  Python `dict`s
keyed by backup-set name are modelled as functions `String → Option _`.
The platform is fixed to POSIX (`IS_WINDOWS = False`).
-/

namespace RcloneBackup

/-! ## String helpers mirroring the Python primitives used by the core -/

/-- Python `s.rstrip(c)` for a single character `c`: removes every trailing
occurrence of `c`. -/
def rstripChar (s : String) (c : Char) : String :=
  ⟨(s.data.reverse.dropWhile (· == c)).reverse⟩

/-- Python `s.split(sep, 1)[1] if sep in s else ''` for `sep = ':'`:
everything after the first colon, or `""` when there is no colon. -/
def afterFirstColon (s : String) : String :=
  ⟨(s.data.dropWhile (· != ':')).drop 1⟩

/-- Python's default `\s` class on the ASCII range (`str.strip()` /
`re` whitespace): space, tab, newline, carriage return, form feed,
vertical tab. -/
def pyWs (c : Char) : Bool :=
  c == ' ' || c == '\t' || c == '\n' || c == '\r' || c == '\x0c' || c == '\x0b'

/-- Python `s.strip()`: remove leading and trailing whitespace. -/
def pyStrip (s : String) : String :=
  ⟨((s.data.dropWhile pyWs).reverse.dropWhile pyWs).reverse⟩

/-- Split a character list at every occurrence of `sep`, keeping empty
pieces (Python `str.split(sep)` semantics). -/
def pySplitChar (sep : Char) : List Char → List (List Char)
  | [] => [[]]
  | a :: t =>
      if a == sep then [] :: pySplitChar sep t
      else
        match pySplitChar sep t with
        | h :: r => (a :: h) :: r
        | [] => [[a]]

/-- `pathlib.PurePosixPath(s).name`: the final path component, with empty
and `"."` components removed by path normalisation; `""` for the root or
the empty path. -/
def pathName (s : String) : String :=
  ⟨(((pySplitChar '/' s.data).filter
      (fun c => c != ([] : List Char) && c != ['.'])).getLast?).getD []⟩

/-! ## History/Statistics Store (`src/core/state_manager.py`)

`StateManager` keeps `last_runs` (name → most recent outcome),
`run_history` (list capped to the most recent 100 entries) and aggregate
`statistics`.  `save()` only performs disk I/O and never changes the
in-memory state, so it is not modelled. -/

/-- One element of `run_history`, as built by `StateManager.record_run`. -/
structure RunEntry where
  name : String
  timestamp : String
  success : Bool
  duration : Rat
deriving DecidableEq, Repr

/-- The `statistics` sub-dictionary of the persisted state. -/
structure Statistics where
  total_runs : Nat
  successful_runs : Nat
  failed_runs : Nat
deriving DecidableEq, Repr

/-- In-memory state of `StateManager` (`self._state`). -/
structure SMState where
  last_runs : String → Option (String × Bool × Rat)
  run_history : List RunEntry
  statistics : Statistics

/-- `StateManager._get_default_state()`: empty maps and zeroed counters. -/
def defaultState : SMState :=
  { last_runs := fun _ => none
    run_history := []
    statistics := ⟨0, 0, 0⟩ }

/-- Python `l[-n:]` for `n ≥ 1`: the suffix of the last `min n l.length`
elements. -/
def takeLast {α : Type} (n : Nat) (l : List α) : List α :=
  l.drop (l.length - n)

/-- Python `l[-limit:]` for an arbitrary non-negative `limit`: for
`limit = 0` the slice `[-0:]` is `[0:]`, the whole list. -/
def pySliceLast {α : Type} (l : List α) (limit : Nat) : List α :=
  if limit = 0 then l else takeLast limit l

/-- `StateManager.record_run(name, success, duration)` with the
`datetime.now().isoformat()` timestamp passed in as an input: updates
`last_runs[name]`, appends to `run_history` and re-slices it to the last
100 entries, and increments the aggregate counters.  The trailing
`self.save()` is pure I/O. -/
def record_run (st : SMState) (name : String) (success : Bool)
    (duration : Rat) (timestamp : String) : SMState :=
  { last_runs := fun n =>
      if n = name then some (timestamp, success, duration) else st.last_runs n
    run_history :=
      takeLast 100 (st.run_history ++ [⟨name, timestamp, success, duration⟩])
    statistics :=
      { total_runs := st.statistics.total_runs + 1
        successful_runs :=
          st.statistics.successful_runs + (if success then 1 else 0)
        failed_runs :=
          st.statistics.failed_runs + (if success then 0 else 1) } }

/-- `StateManager.get_recent_history(limit)`:
`self._state['run_history'][-limit:][::-1]`. -/
def get_recent_history (st : SMState) (limit : Nat) : List RunEntry :=
  (pySliceLast st.run_history limit).reverse

/-- The arguments of one `record_run` call (timestamp included, since the
wall clock is an input of the model). -/
structure RunCall where
  name : String
  success : Bool
  duration : Rat
  timestamp : String
deriving DecidableEq, Repr

/-- The history entry a call produces. -/
def RunCall.entry (c : RunCall) : RunEntry :=
  ⟨c.name, c.timestamp, c.success, c.duration⟩

/-- Replay a sequence of `record_run` calls from a given state. -/
def applyCalls (st : SMState) (calls : List RunCall) : SMState :=
  calls.foldl (fun s c => record_run s c.name c.success c.duration c.timestamp) st

/-! ### Helper lemmas about `takeLast` -/

theorem length_takeLast {α : Type} (n : Nat) (l : List α) :
    (takeLast n l).length = min n l.length := by
  rw [takeLast, List.length_drop]
  omega

theorem takeLast_takeLast_append {α : Type} (n : Nat) (l₁ l₂ : List α) :
    takeLast n (takeLast n l₁ ++ l₂) = takeLast n (l₁ ++ l₂) := by
  unfold takeLast
  rw [← List.drop_append_of_le_length
    (show l₁.length - n ≤ l₁.length by omega)]
  rw [List.drop_drop]
  congr 1
  simp only [List.length_drop, List.length_append]
  omega

theorem applyCalls_run_history (calls : List RunCall) :
    ∀ (st : SMState) (h : List RunEntry),
      st.run_history = takeLast 100 h →
      (applyCalls st calls).run_history =
        takeLast 100 (h ++ calls.map RunCall.entry) := by
  induction calls with
  | nil => intro st h hst; simpa [applyCalls] using hst
  | cons c cs ih =>
      intro st h hst
      have hstep :
          (record_run st c.name c.success c.duration c.timestamp).run_history =
            takeLast 100 (h ++ [c.entry]) := by
        simp only [record_run, hst, RunCall.entry]
        exact takeLast_takeLast_append 100 h [⟨c.name, c.timestamp, c.success, c.duration⟩]
      have := ih (record_run st c.name c.success c.duration c.timestamp)
        (h ++ [c.entry]) hstep
      simpa [applyCalls, List.append_assoc] using this

theorem applyCalls_statistics (calls : List RunCall) :
    ∀ st : SMState,
      (applyCalls st calls).statistics.total_runs =
          st.statistics.total_runs + calls.length ∧
      (applyCalls st calls).statistics.successful_runs =
          st.statistics.successful_runs + (calls.countP (·.success)) ∧
      (applyCalls st calls).statistics.failed_runs =
          st.statistics.failed_runs + (calls.countP (!·.success)) := by
  induction calls with
  | nil => intro st; simp [applyCalls]
  | cons c cs ih =>
      intro st
      have h := ih (record_run st c.name c.success c.duration c.timestamp)
      simp only [applyCalls, List.foldl_cons] at h ⊢
      rcases h with ⟨h1, h2, h3⟩
      refine ⟨?_, ?_, ?_⟩
      · rw [h1]; simp [record_run, List.countP_cons]; omega
      · rw [h2]; by_cases hs : c.success <;>
          · simp [record_run, List.countP_cons, hs]; try omega
      · rw [h3]; by_cases hs : c.success <;>
          · simp [record_run, List.countP_cons, hs]; try omega

/-! ### Claim C3 -/

/-- **C3.** Starting from the default empty state, after any finite sequence
of `record_run` calls the `run_history` list has length at most 100 and its
elements are exactly the most recently recorded entries — the last
`min n 100` of the `n` recorded entries, in call order (oldest evicted
first). -/
theorem c3_history_cap (calls : List RunCall) :
    (applyCalls defaultState calls).run_history =
        takeLast 100 (calls.map RunCall.entry) ∧
    (applyCalls defaultState calls).run_history.length ≤ 100 ∧
    (applyCalls defaultState calls).run_history.length =
        min calls.length 100 := by
  have h := applyCalls_run_history calls defaultState [] (by simp [defaultState, takeLast])
  simp only [List.nil_append] at h
  refine ⟨h, ?_, ?_⟩
  · rw [h, length_takeLast]; omega
  · rw [h, length_takeLast]; simp [Nat.min_comm]

/-! ### Claim C4 -/

/-- **C4.** Each `record_run` call increments `total_runs` by exactly 1 and
exactly one of `successful_runs` (success) or `failed_runs` (failure),
never decrementing or recomputing any counter; consequently, starting from
the default state, `total_runs = successful_runs + failed_runs` holds after
every `record_run` call. -/
theorem c4_statistics_invariant :
    (∀ (st : SMState) (n : String) (d : Rat) (t : String),
      (record_run st n true d t).statistics.total_runs =
          st.statistics.total_runs + 1 ∧
      (record_run st n true d t).statistics.successful_runs =
          st.statistics.successful_runs + 1 ∧
      (record_run st n true d t).statistics.failed_runs =
          st.statistics.failed_runs) ∧
    (∀ (st : SMState) (n : String) (d : Rat) (t : String),
      (record_run st n false d t).statistics.total_runs =
          st.statistics.total_runs + 1 ∧
      (record_run st n false d t).statistics.successful_runs =
          st.statistics.successful_runs ∧
      (record_run st n false d t).statistics.failed_runs =
          st.statistics.failed_runs + 1) ∧
    (∀ calls : List RunCall,
      (applyCalls defaultState calls).statistics.total_runs =
        (applyCalls defaultState calls).statistics.successful_runs +
          (applyCalls defaultState calls).statistics.failed_runs) := by
  refine ⟨fun st n d t => by simp [record_run],
          fun st n d t => by simp [record_run],
          fun calls => ?_⟩
  obtain ⟨h1, h2, h3⟩ := applyCalls_statistics calls defaultState
  rw [h1, h2, h3]
  simp [defaultState]
  have := calls.length_eq_countP_add_countP (p := (·.success))
  simp only [Bool.not_eq_true] at this
  rw [this]
  congr 1
  exact List.countP_congr (fun c _ => by cases h : c.success <;> simp [h])

/-! ### Claim C10 -/

/-- **C10.** `get_recent_history limit` returns `run_history[-limit:]`
reversed: for `limit ≥ 1` this is the most recent `min limit length`
entries in most-recent-first order (`reverse.take limit`), but for
`limit = 0` it is the entire run history in most-recent-first order, not
the empty list. -/
theorem c10_recent_history (st : SMState) (limit : Nat) :
    get_recent_history st limit =
      if limit = 0 then st.run_history.reverse
      else st.run_history.reverse.take limit := by
  by_cases h0 : limit = 0
  · simp [get_recent_history, pySliceLast, h0]
  · simp only [get_recent_history, pySliceLast, h0, if_false]
    rw [takeLast, List.reverse_drop]
    by_cases hl : limit ≤ st.run_history.length
    · congr 1; omega
    · rw [List.take_of_length_le (by simp; omega),
          List.take_of_length_le (by simp; omega)]

/-! ## Process Runner (`src/core/rclone_runner.py`, `run_rclone_copy`)

The external process is an input of the model: it either fails to spawn
(`FileNotFoundError`), spawns and produces a stream of output lines before
exiting with a code, or raises some other exception after a prefix of
lines has been read.  The two optional callbacks are modelled as an event
trail: each `Event.log` is one `log_callback` invocation, each
`Event.progress` one `progress_callback` invocation, in call order. -/

/-- A character `shlex.quote` leaves unquoted (the complement of its
`_unsafe` ASCII class): letters, digits and `_ @ % + = : , . - ` and the
forward slash. -/
def shlexSafe (c : Char) : Bool :=
  c.isAlphanum || c == '_' || c == '@' || c == '%' || c == '+' || c == '=' ||
    c == ':' || c == ',' || c == '.' || c == '/' || c == '-'

/-- `shlex.quote(s)` (POSIX): `''` for the empty string, `s` unchanged when
every character is safe, otherwise single-quoted with embedded single
quotes escaped as `'"'"'`. -/
def shlexQuote (s : String) : String :=
  if s = "" then "\x27\x27"
  else if s.data.all shlexSafe then s
  else "\x27" ++
    String.join (s.data.map fun c =>
      if c == '\x27' then "\x27\"\x27\"\x27" else String.singleton c) ++
    "\x27"

/-- The argument vector `['rclone', 'copy', local, remote, '--progress',
'--stats=1s'] + extras`. -/
def cmdList (localPath remote : String) (extras : List String) : List String :=
  ["rclone", "copy", localPath, remote, "--progress", "--stats=1s"] ++ extras

/-- `' '.join(shlex.quote(x) for x in cmd)` (the non-Windows branch). -/
def cmdString (localPath remote : String) (extras : List String) : String :=
  String.intercalate " " ((cmdList localPath remote extras).map shlexQuote)

/-- One callback invocation made by `run_rclone_copy`. -/
inductive Event where
  | log (line : String)
  | progress (percent : Nat) (message : String)
deriving DecidableEq, Repr

/-- Behaviour of the spawned external process, as seen by the runner. -/
inductive ProcOutcome where
  /-- `subprocess.Popen` raises `FileNotFoundError`. -/
  | notFound
  /-- The merged stream yields `lines` and the process exits with `rc`. -/
  | exits (lines : List String) (rc : Int)
  /-- Some other exception with message `msg` is raised after `lines` have
  been read (the `except Exception` arm). -/
  | raises (lines : List String) (msg : String)
deriving DecidableEq, Repr

/-- Try the pattern `(\d{1,3})%` anchored at the head of `l`, greedy with
backtracking: three digits then `%`, else two, else one. -/
def pctMatchAt : List Char → Option Nat
  | a :: b :: c :: d :: _ =>
      if a.isDigit && b.isDigit && c.isDigit && d == '%' then
        some (100 * (a.toNat - 48) + 10 * (b.toNat - 48) + (c.toNat - 48))
      else if a.isDigit && b.isDigit && c == '%' then
        some (10 * (a.toNat - 48) + (b.toNat - 48))
      else if a.isDigit && b == '%' then some (a.toNat - 48)
      else none
  | [a, b, c] =>
      if a.isDigit && b.isDigit && c == '%' then
        some (10 * (a.toNat - 48) + (b.toNat - 48))
      else if a.isDigit && b == '%' then some (a.toNat - 48)
      else none
  | [a, b] => if a.isDigit && b == '%' then some (a.toNat - 48) else none
  | _ => none

/-- `re.search(r'(\d{1,3})%', line)`: leftmost match, returning the numeric
value of the digit group (`float` of a 1–3 digit token is exact, so `Nat`).
-/
def pctSearch : List Char → Option Nat
  | [] => none
  | a :: t =>
      match pctMatchAt (a :: t) with
      | some v => some v
      | none => pctSearch t

/-- The tail `\s*(.+?)(?:,|$)` of the `Transferring:` pattern applied to
`r` (the text after the literal), with greedy `\s*` and lazy group:
if anything follows the whitespace the group runs to just before the first
subsequent comma (at least one character); if `r` is whitespace only, `\s*`
backtracks one character and the group is that last whitespace character;
if `r` is empty the pattern fails. -/
def transferringGroupTail (r : List Char) : Option (List Char) :=
  match r.dropWhile pyWs with
  | a :: rest => some (a :: rest.takeWhile (fun c => c != ','))
  | [] =>
      match r.getLast? with
      | some c => some [c]
      | none => none

/-- `re.search(r'Transferring:\s*(.+?)(?:,|$)', line)`: leftmost position
where the literal matches and the tail pattern succeeds. -/
def transferringSearch : List Char → Option (List Char)
  | [] => none
  | a :: t =>
      if "Transferring:".data.isPrefixOf (a :: t) then
        match transferringGroupTail ((a :: t).drop "Transferring:".data.length) with
        | some g => some g
        | none => transferringSearch t
      else transferringSearch t

/-- Loop state of the output-reading loop: the running last-known `percent`
and the last extracted `current_file`. -/
structure LineState where
  percent : Nat
  current_file : String
deriving DecidableEq, Repr

/-- The body of `for line in process.stdout` for one (already
newline-stripped) line: emit the log line, update `percent` and
`current_file` from the two regexes, build the status message and emit the
progress event. -/
def lineStep (st : LineState) (line : String) : LineState × List Event :=
  let percent := (pctSearch line.data).getD st.percent
  let current_file :=
    match transferringSearch line.data with
    | some g => pyStrip ⟨g⟩
    | none => st.current_file
  let status :=
    if current_file != "" then toString percent ++ "% - " ++ current_file
    else if pyStrip line != "" then line
    else toString percent ++ "%"
  (⟨percent, current_file⟩, [.log (line ++ "\n"), .progress percent status])

/-- Run the output loop over a list of raw lines (each first stripped of
trailing newlines, as by `line.rstrip('\n')`). -/
def processLines (st : LineState) (lines : List String) : LineState × List Event :=
  lines.foldl
    (fun acc line =>
      let r := lineStep acc.1 (rstripChar line '\n')
      (r.1, acc.2 ++ r.2))
    (st, [])

/-- The last-known percent after reading `lines` (initially `0.0`). -/
def percentAfter (lines : List String) : Nat :=
  (processLines ⟨0, ""⟩ lines).1.percent

/-- `run_rclone_copy(local, remote, extras, progress_callback,
log_callback)` with both callbacks supplied, returning the exit code and
the trail of callback invocations. -/
def run_rclone_copy (localPath remote : String) (extras : List String)
    (out : ProcOutcome) : Int × List Event :=
  let cmdEcho := Event.log ("$ " ++ cmdString localPath remote extras ++ "\n\n")
  match out with
  | .notFound =>
      let error := "rclone not found. Please install rclone and add to PATH."
      (127, [cmdEcho, .log ("ERROR: " ++ error ++ "\n"), .progress 0 error])
  | .exits lines rc =>
      let loop := processLines ⟨0, ""⟩ lines
      let finalProg :=
        if rc = 0 then Event.progress 100 "Completed successfully"
        else Event.progress loop.1.percent
          ("Failed (exit code: " ++ toString rc ++ ")")
      let statusWord := if rc = 0 then "SUCCESS" else "FAILED"
      (rc, cmdEcho :: loop.2 ++
        [finalProg,
         .log ("\n[" ++ statusWord ++ "] Exit code: " ++ toString rc ++ "\n")])
  | .raises lines msg =>
      let loop := processLines ⟨0, ""⟩ lines
      let error := "Unexpected error: " ++ msg
      (1, cmdEcho :: loop.2 ++
        [.log ("ERROR: " ++ error ++ "\n"), .progress 0 error])

/-! ## Backup Orchestrator (`src/core/backup_manager.py`, `BackupManager`)

`self.status` and `self.logs` are dictionaries keyed by backup-set name,
modelled as functions `String → Option _`.  Wall-clock timestamps are
inputs.  The first-run marker file `FIRST_RUN_FLAG` is modelled as a
boolean (its mere existence is the state). -/

/-- One configured backup set, a JSON object whose keys may be missing:
`backup_set.get('name', 'unnamed')`, `backup_set.get('local', '')`,
`backup_set.get('remote', '')`. -/
structure BackupSet where
  name : Option String
  localPath : Option String
  remote : Option String
deriving DecidableEq, Repr

def nameOf (b : BackupSet) : String := b.name.getD "unnamed"

def localOf (b : BackupSet) : String := b.localPath.getD ""

def remoteOf (b : BackupSet) : String := b.remote.getD ""

/-- The `settings` object, keys optional with the defaults used at each
`settings.get(...)` site. -/
structure Settings where
  transfers : Option Nat
  checkers : Option Nat
  retries : Option Nat
  retries_sleep : Option String
deriving DecidableEq, Repr

/-- The loaded configuration: `config.get('backup_sets', [])` and
`config.get('settings', {})`. -/
structure Config where
  backup_sets : Option (List BackupSet)
  settings : Option Settings

def getBackupSets (c : Config) : List BackupSet := c.backup_sets.getD []

def getSettings (c : Config) : Settings :=
  c.settings.getD ⟨none, none, none, none⟩

/-- The per-name status dictionary value.  `start_all` writes
`{'percent', 'line', 'rc', 'start_time'}`; the completion write in
`_run_backup` replaces it with `{'percent', 'line', 'rc', 'duration'}`,
so the two extra keys are optional. -/
structure StatusEntry where
  percent : Nat
  line : String
  rc : Option Int
  start_time : Option String
  duration : Option Rat
deriving DecidableEq, Repr

/-- The status entry `start_all` installs before spawning a run. -/
def initStatusEntry (t : String) : StatusEntry :=
  ⟨0, "Initializing...", none, some t, none⟩

/-- The shared mutable state of `BackupManager`: `self.status` and
`self.logs`. -/
structure BMState where
  status : String → Option StatusEntry
  logs : String → Option (List String)

/-- A `BackupManager` whose dictionaries are empty. -/
def idleBM : BMState := ⟨fun _ => none, fun _ => none⟩

/-- The four kinds of mutation of the shared status/log dictionaries, each
tied to its source site. -/
inductive BMOp where
  /-- The per-name re-initialisation in `start_all` (status reset plus log
  clear), with the `datetime.now().isoformat()` start timestamp. -/
  | reset (name tstamp : String)
  /-- `progress_cb` in `_run_backup`: overwrites only the `percent` and
  `line` fields of the existing entry. -/
  | progressUpd (name : String) (percent : Nat) (line : String)
  /-- `log_cb` in `_run_backup`: appends one line to the name's buffer. -/
  | logAppend (name line : String)
  /-- The completion write in `_run_backup` after `run_rclone_copy`
  returns `rc`. -/
  | finish (name : String) (rc : Int) (duration : Rat)
deriving DecidableEq, Repr

/-- Apply one operation.  Field updates on a missing key would raise
`KeyError` in Python; they are modelled as applying only when the entry is
present (`Option.map`), which is the only case the code exercises. -/
def stepOp (s : BMState) (op : BMOp) : BMState :=
  match op with
  | .reset n t =>
      { status := fun m => if m = n then some (initStatusEntry t) else s.status m
        logs := fun m => if m = n then some [] else s.logs m }
  | .progressUpd n p l =>
      { s with status := fun m =>
          if m = n then (s.status m).map (fun e => { e with percent := p, line := l })
          else s.status m }
  | .logAppend n l =>
      { s with logs := fun m =>
          if m = n then (s.logs m).map (· ++ [l]) else s.logs m }
  | .finish n rc d =>
      { s with status := fun m =>
          if m = n then
            some ⟨100,
              (if rc = 0 then "Completed successfully"
               else "Failed (exit code: " ++ toString rc ++ ")"),
              some rc, none, some d⟩
          else s.status m }

/-- The name's status entry exists and carries a present exit code. -/
def hasExit (s : BMState) (n : String) : Bool :=
  match s.status n with
  | some e => e.rc.isSome
  | none => false

/-- Whether `op` is the per-run re-initialisation for name `n`. -/
def BMOp.isResetFor (op : BMOp) (n : String) : Bool :=
  match op with
  | .reset m _ => m == n
  | _ => false

/-- `BackupManager.start_all(dry_run)` builds the `extras` argument list
(appending `--checksum` when the marker file is absent and `--dry-run` on
request), then iterates the configured sets: a set whose `local` or
`remote` is empty is skipped with a warning, every other set has its
status and log re-initialised and one `_run_backup` thread started with
`(name, local, remote, extras)`; finally the marker is written when this
was a first run and the configured set list is non-empty. -/
def buildExtras (c : Config) (first_run dry_run : Bool) : List String :=
  let s := getSettings c
  ["--transfers=" ++ toString (s.transfers.getD 8),
   "--checkers=" ++ toString (s.checkers.getD 8),
   "--retries=" ++ toString (s.retries.getD 3),
   "--retries-sleep=" ++ s.retries_sleep.getD "10s",
   "--stats-one-line"]
  ++ (if first_run then ["--checksum"] else [])
  ++ (if dry_run then ["--dry-run"] else [])

/-- `if not local or not remote: ... continue` — a set is launched iff
both strings are non-empty (Python truthiness of `str`). -/
def validSet (b : BackupSet) : Bool :=
  localOf b != "" && remoteOf b != ""

/-- The argument tuple handed to one `_run_backup` thread. -/
structure SpawnedRun where
  name : String
  localPath : String
  remote : String
  extras : List String
deriving DecidableEq, Repr

/-- Result of one `start_all` invocation: the mutated status/log state,
the launched runs in launch order, the skip warnings in emission order,
the `extras` list, and whether the marker file exists afterwards. -/
structure StartAllResult where
  state : BMState
  spawned : List SpawnedRun
  warnings : List String
  extras : List String
  markerAfter : Bool

/-- The loop body of `start_all` for one configured set. -/
def startAllStep (extras : List String) (t : String)
    (acc : BMState × List SpawnedRun × List String) (b : BackupSet) :
    BMState × List SpawnedRun × List String :=
  if validSet b then
    ({ status := fun m =>
         if m = nameOf b then some (initStatusEntry t) else acc.1.status m
       logs := fun m =>
         if m = nameOf b then some [] else acc.1.logs m },
     acc.2.1 ++ [⟨nameOf b, localOf b, remoteOf b, extras⟩],
     acc.2.2)
  else
    (acc.1, acc.2.1,
      acc.2.2 ++ ["Skipping " ++ nameOf b ++ ": missing local or remote path"])

/-- `BackupManager.start_all(dry_run)`; `markerPresent` is
`FIRST_RUN_FLAG.exists()` on entry and `t` the shared launch timestamp. -/
def start_all (c : Config) (markerPresent dry_run : Bool) (t : String)
    (s0 : BMState) : StartAllResult :=
  let first_run := !markerPresent
  let extras := buildExtras c first_run dry_run
  let r := (getBackupSets c).foldl (startAllStep extras t) (s0, [], [])
  { state := r.1
    spawned := r.2.1
    warnings := r.2.2
    extras := extras
    markerAfter := markerPresent || (first_run && !(getBackupSets c).isEmpty) }

/-- The destination-adjustment step of `_run_backup`: if the part of
`remote` after the first `:` is non-empty and contains no `/`, the base
name of the source folder is appended; otherwise `remote` is unchanged.
(The enclosing `try/except: pass` is dead — no statement inside can
raise.) -/
def adjustRemote (localPath remote : String) : String :=
  let remote_path := afterFirstColon remote
  if remote_path != "" && !(remote_path.data.contains '/') then
    rstripChar remote '/' ++ "/" ++ pathName localPath
  else remote

/-! ## Claims about the Process Runner and the destination rewrite -/

/-- An event that is a `progress_callback` invocation. -/
def Event.isProgress : Event → Bool
  | .progress _ _ => true
  | _ => false

/-- An event that is a `log_callback` invocation of an error line (the
code's error lines all start with `ERROR: `). -/
def Event.isErrorLog : Event → Bool
  | .log s => "ERROR: ".data.isPrefixOf s.data
  | _ => false

theorem isErrorLog_cmdEcho (x : String) :
    Event.isErrorLog (Event.log ("$ " ++ x)) = false := by
  obtain ⟨l⟩ := x
  rfl

/-! ### Claim C2 -/

/-- **C2** (counterexample).  For the destination `remote:` — whose path
component after the colon is empty — and a source whose base name is
`Docs`, the rewritten destination is `remote:` unchanged, not
`remote:Docs` as the claim states: the rewrite only fires when the path
component is non-empty. -/
theorem c2_counterexample :
    adjustRemote "/home/user/Docs" "remote:" = "remote:" ∧
    "remote:" ≠ "remote:Docs" := by
  exact ⟨by decide, by decide⟩

/-- **C2** (amended).  Destination rewriting before launching a run: a
destination whose path component is empty (such as `remote:`) is passed
unchanged; a destination whose path component contains a `/` (such as
`remote:existing/path`) is passed unchanged; a destination with a
non-empty slash-free path component (such as `remote:bucket` with source
base name `Docs`) becomes `remote:bucket/Docs`. -/
theorem c2_destination_rewrite (localPath : String) :
    adjustRemote localPath "remote:" = "remote:" ∧
    adjustRemote localPath "remote:existing/path" = "remote:existing/path" ∧
    adjustRemote "/home/user/Docs" "remote:bucket" = "remote:bucket/Docs" := by
  refine ⟨rfl, rfl, by decide⟩

/-! ### Claim C7 -/

/-- **C7.**  When spawning rclone fails with `FileNotFoundError`,
`run_rclone_copy` returns the sentinel exit code 127 after echoing the
command line, appending exactly one error line to the log, and invoking
the progress callback exactly once, with percent 0 and a message
containing "not found"; no exception propagates (the function totalises
to the returned code). -/
theorem c7_not_found (localPath remote : String) (extras : List String) :
    run_rclone_copy localPath remote extras .notFound =
      (127,
       [Event.log ("$ " ++ cmdString localPath remote extras ++ "\n\n"),
        Event.log "ERROR: rclone not found. Please install rclone and add to PATH.\n",
        Event.progress 0 "rclone not found. Please install rclone and add to PATH."]) ∧
    "rclone not found. Please install rclone and add to PATH." =
      "rclone " ++ "not found" ++ ". Please install rclone and add to PATH." ∧
    ((run_rclone_copy localPath remote extras .notFound).2.filter
        Event.isProgress).length = 1 ∧
    ((run_rclone_copy localPath remote extras .notFound).2.filter
        Event.isErrorLog).length = 1 := by
  refine ⟨rfl, by decide, ?_, ?_⟩
  · rfl
  · show (List.filter Event.isErrorLog
      [Event.log ("$ " ++ (cmdString localPath remote extras ++ "\n\n")),
       Event.log "ERROR: rclone not found. Please install rclone and add to PATH.\n",
       Event.progress 0 "rclone not found. Please install rclone and add to PATH."]).length = 1
    rw [List.filter_cons_of_neg (by simp [isErrorLog_cmdEcho])]
    decide

/-! ### Claim C8 -/

/-- **C8** (counterexample).  On a generic mid-run exception the current
code calls the progress callback with percent `0`, not with the last-known
percent: after a line reporting `50%` the last-known percent is 50, yet
the final progress invocation carries 0. -/
theorem c8_counterexample :
    percentAfter ["Transferred: 50%"] = 50 ∧
    (run_rclone_copy "/data" "remote:backup" []
        (.raises ["Transferred: 50%"] "boom")).2.getLast? =
      some (Event.progress 0 "Unexpected error: boom") ∧
    (0 : Nat) ≠ 50 := by
  refine ⟨by decide, by decide, by decide⟩

/-- **C8** (amended).  For every launch/read exception other than
executable-not-found, `run_rclone_copy` emits one `ERROR:` line via the
log callback, then calls the progress callback with percent 0 and the
message `Unexpected error: <e>`, and returns the generic exit code 1; no
exception propagates. -/
theorem c8_generic_error (localPath remote : String) (extras : List String)
    (lines : List String) (msg : String) :
    run_rclone_copy localPath remote extras (.raises lines msg) =
      (1,
       Event.log ("$ " ++ cmdString localPath remote extras ++ "\n\n") ::
         (processLines ⟨0, ""⟩ lines).2 ++
         [Event.log ("ERROR: " ++ ("Unexpected error: " ++ msg) ++ "\n"),
          Event.progress 0 ("Unexpected error: " ++ msg)]) := by
  rfl

/-! ### Claim C9 -/

/-- **C9** (counterexample).  After the stream closes with exit code 0 the
final progress invocation is `(100, "Completed successfully")`; no
invocation `(100, "Finished (exit code: 0)")` ever occurs, contrary to the
claim. -/
theorem c9_counterexample :
    (run_rclone_copy "/data" "remote:backup" [] (.exits [] 0)).2 =
      [Event.log ("$ " ++ cmdString "/data" "remote:backup" [] ++ "\n\n"),
       Event.progress 100 "Completed successfully",
       Event.log "\n[SUCCESS] Exit code: 0\n"] ∧
    Event.progress 100 "Finished (exit code: 0)" ∉
      (run_rclone_copy "/data" "remote:backup" [] (.exits [] 0)).2 := by
  refine ⟨by decide, by decide⟩

/-- **C9** (amended).  For every exit code `N`, after the merged stream
closes `run_rclone_copy` waits for process exit and returns `N`; it emits
a final progress callback — `(100, "Completed successfully")` when
`N = 0`, `(last-known percent, "Failed (exit code: N)")` otherwise — and
then a terminal `[SUCCESS|FAILED] Exit code: N` summary line via the log
callback. -/
theorem c9_exit_path (localPath remote : String) (extras : List String)
    (lines : List String) (rc : Int) :
    run_rclone_copy localPath remote extras (.exits lines rc) =
      (rc,
       Event.log ("$ " ++ cmdString localPath remote extras ++ "\n\n") ::
         (processLines ⟨0, ""⟩ lines).2 ++
         [(if rc = 0 then Event.progress 100 "Completed successfully"
           else Event.progress (percentAfter lines)
             ("Failed (exit code: " ++ toString rc ++ ")")),
          Event.log ("\n[" ++ (if rc = 0 then "SUCCESS" else "FAILED") ++
            "] Exit code: " ++ toString rc ++ "\n")]) := by
  rfl

/-! ### Claim C5 -/

theorem hasExit_stepOp (s : BMState) (op : BMOp) (n : String)
    (h : hasExit s n = true) (hop : op.isResetFor n = false) :
    hasExit (stepOp s op) n = true := by
  cases op with
  | reset m t =>
      have hmn : ¬(n = m) := by
        intro e
        subst e
        simp [BMOp.isResetFor] at hop
      simpa [stepOp, hasExit, hmn] using h
  | progressUpd m p l =>
      by_cases hnm : n = m
      · subst hnm
        unfold hasExit at h ⊢
        simp only [stepOp, if_pos rfl]
        cases hs : s.status n with
        | none => rw [hs] at h; exact absurd h (by simp)
        | some e => rw [hs] at h; simpa using h
      · simpa [stepOp, hasExit, hnm] using h
  | logAppend m l =>
      simpa [stepOp, hasExit] using h
  | finish m rc d =>
      by_cases hnm : n = m
      · subst hnm
        simp [stepOp, hasExit]
      · simpa [stepOp, hasExit, hnm] using h

/-- **C5.**  Once a name's status entry has a present exit code, no
subsequent progress update, log append or completion write — for any name
— ever sets that entry's exit code back to absent: under any sequence of
store operations containing no re-initialisation for that name the exit
code stays present, while the per-run re-initialisation performed for that
name in `start_all` does return it to the absent state. -/
theorem c5_exit_code_stable :
    (∀ (s : BMState) (ops : List BMOp) (n : String),
      hasExit s n = true →
      ops.all (fun op => !op.isResetFor n) = true →
      hasExit (ops.foldl stepOp s) n = true) ∧
    (∀ (s : BMState) (n t : String),
      hasExit (stepOp s (.reset n t)) n = false) := by
  constructor
  · intro s ops n
    induction ops generalizing s with
    | nil => intro h _; simpa using h
    | cons op rest ih =>
        intro h hall
        simp only [List.all_cons, Bool.and_eq_true, Bool.not_eq_true'] at hall
        exact ih (stepOp s op) (hasExit_stepOp s op n h hall.1)
          (by simpa [List.all_eq_true] using hall.2)
  · intro s n t
    simp [stepOp, hasExit, initStatusEntry]

/-- **C5** (witness): a concrete finished entry for `"A"` keeps its exit
code through a progress update, a log append, a completion write for a
different name and even a re-initialisation of that different name. -/
theorem c5_witness :
    hasExit
      (List.foldl stepOp
        ⟨fun m => if m = "A" then some ⟨100, "done", some 0, none, some 5⟩ else none,
         fun _ => none⟩
        [BMOp.progressUpd "A" 50 "x", BMOp.logAppend "A" "y",
         BMOp.finish "B" 1 2, BMOp.reset "B" "t1"]) "A" = true :=
  c5_exit_code_stable.1
    ⟨fun m => if m = "A" then some ⟨100, "done", some 0, none, some 5⟩ else none,
     fun _ => none⟩
    [BMOp.progressUpd "A" 50 "x", BMOp.logAppend "A" "y",
     BMOp.finish "B" 1 2, BMOp.reset "B" "t1"] "A"
    (by decide) (by decide)

/-! ### The `start_all` loop, unrolled -/

theorem start_all_foldl_spawned (extras : List String) (t : String)
    (sets : List BackupSet) :
    ∀ (s0 : BMState) (sp0 : List SpawnedRun) (ws0 : List String),
      (sets.foldl (startAllStep extras t) (s0, sp0, ws0)).2.1 =
        sp0 ++ (sets.filter validSet).map
          (fun b => ⟨nameOf b, localOf b, remoteOf b, extras⟩) := by
  induction sets with
  | nil => intro s0 sp0 ws0; simp
  | cons b bs ih =>
      intro s0 sp0 ws0
      by_cases hv : validSet b = true
      · simp only [List.foldl_cons, startAllStep, hv, if_true]
        rw [ih]
        simp [List.filter_cons, hv]
      · have hv2 : validSet b = false := by simpa using hv
        have he : List.filter validSet (b :: bs) = List.filter validSet bs := by
          simp [List.filter_cons, hv2]
        simp only [List.foldl_cons, startAllStep, hv, if_false]
        rw [ih, he]
        simp

theorem start_all_foldl_warnings (extras : List String) (t : String)
    (sets : List BackupSet) :
    ∀ (s0 : BMState) (sp0 : List SpawnedRun) (ws0 : List String),
      (sets.foldl (startAllStep extras t) (s0, sp0, ws0)).2.2 =
        ws0 ++ (sets.filter (fun b => !validSet b)).map
          (fun b => "Skipping " ++ nameOf b ++ ": missing local or remote path") := by
  induction sets with
  | nil => intro s0 sp0 ws0; simp
  | cons b bs ih =>
      intro s0 sp0 ws0
      by_cases hv : validSet b = true
      · simp only [List.foldl_cons, startAllStep, hv, if_true]
        rw [ih]
        simp [List.filter_cons, hv]
      · have hv2 : validSet b = false := by simpa using hv
        have he2 : List.filter (fun x => !validSet x) (b :: bs) =
            b :: List.filter (fun x => !validSet x) bs := by
          simp [List.filter_cons, hv2]
        simp only [List.foldl_cons, startAllStep, hv, if_false]
        rw [ih, he2]
        simp

theorem start_all_foldl_status (extras : List String) (t : String)
    (sets : List BackupSet) :
    ∀ (s0 : BMState) (sp0 : List SpawnedRun) (ws0 : List String) (m : String),
      (sets.foldl (startAllStep extras t) (s0, sp0, ws0)).1.status m =
        if m ∈ (sets.filter validSet).map nameOf then some (initStatusEntry t)
        else s0.status m := by
  induction sets with
  | nil => intro s0 sp0 ws0 m; simp
  | cons b bs ih =>
      intro s0 sp0 ws0 m
      by_cases hv : validSet b = true
      · simp only [List.foldl_cons, startAllStep, hv, if_true]
        rw [ih]
        by_cases h1 : m ∈ (bs.filter validSet).map nameOf
        · simp [List.filter_cons, hv, h1]
        · by_cases h2 : m = nameOf b
          · simp [List.filter_cons, hv, h1, h2]
          · simp [List.filter_cons, hv, h1, h2]
      · have hv2 : validSet b = false := by simpa using hv
        have he : List.filter validSet (b :: bs) = List.filter validSet bs := by
          simp [List.filter_cons, hv2]
        simp only [List.foldl_cons, startAllStep, hv, if_false]
        rw [ih, he]
        simp

theorem start_all_foldl_logs (extras : List String) (t : String)
    (sets : List BackupSet) :
    ∀ (s0 : BMState) (sp0 : List SpawnedRun) (ws0 : List String) (m : String),
      (sets.foldl (startAllStep extras t) (s0, sp0, ws0)).1.logs m =
        if m ∈ (sets.filter validSet).map nameOf then some ([] : List String)
        else s0.logs m := by
  induction sets with
  | nil => intro s0 sp0 ws0 m; simp
  | cons b bs ih =>
      intro s0 sp0 ws0 m
      by_cases hv : validSet b = true
      · simp only [List.foldl_cons, startAllStep, hv, if_true]
        rw [ih]
        by_cases h1 : m ∈ (bs.filter validSet).map nameOf
        · simp [List.filter_cons, hv, h1]
        · by_cases h2 : m = nameOf b
          · simp [List.filter_cons, hv, h1, h2]
          · simp [List.filter_cons, hv, h1, h2]
      · have hv2 : validSet b = false := by simpa using hv
        have he : List.filter validSet (b :: bs) = List.filter validSet bs := by
          simp [List.filter_cons, hv2]
        simp only [List.foldl_cons, startAllStep, hv, if_false]
        rw [ih, he]
        simp

theorem checksum_mem_buildExtras (c : Config) (dry : Bool) :
    ("--checksum" ∈ buildExtras c true dry) ∧
    ¬("--checksum" ∈ buildExtras c false dry) := by
  constructor
  · simp [buildExtras]
  · intro hmem
    cases dry with
    | false =>
        rw [show buildExtras c false false =
            ["--transfers=" ++ toString ((getSettings c).transfers.getD 8),
             "--checkers=" ++ toString ((getSettings c).checkers.getD 8),
             "--retries=" ++ toString ((getSettings c).retries.getD 3),
             "--retries-sleep=" ++ (getSettings c).retries_sleep.getD "10s",
             "--stats-one-line"] from rfl] at hmem
        simp only [List.mem_cons, List.not_mem_nil, or_false] at hmem
        rcases hmem with h | h | h | h | h
        · have h2 := congrArg String.data h; simp [String.data_append] at h2
        · have h2 := congrArg String.data h; simp [String.data_append] at h2
        · have h2 := congrArg String.data h; simp [String.data_append] at h2
        · have h2 := congrArg String.data h; simp [String.data_append] at h2
        · exact absurd h (by decide)
    | true =>
        rw [show buildExtras c false true =
            ["--transfers=" ++ toString ((getSettings c).transfers.getD 8),
             "--checkers=" ++ toString ((getSettings c).checkers.getD 8),
             "--retries=" ++ toString ((getSettings c).retries.getD 3),
             "--retries-sleep=" ++ (getSettings c).retries_sleep.getD "10s",
             "--stats-one-line", "--dry-run"] from rfl] at hmem
        simp only [List.mem_cons, List.not_mem_nil, or_false] at hmem
        rcases hmem with h | h | h | h | h | h
        · have h2 := congrArg String.data h; simp [String.data_append] at h2
        · have h2 := congrArg String.data h; simp [String.data_append] at h2
        · have h2 := congrArg String.data h; simp [String.data_append] at h2
        · have h2 := congrArg String.data h; simp [String.data_append] at h2
        · exact absurd h (by decide)
        · exact absurd h (by decide)

/-! ### Claim C1 -/

/-- **C1** (counterexample).  When the first `start_all` invocation ever
made sees an *empty* backup-set list, the marker file is not written
(`if first_run and self.get_backup_sets()`), so the next invocation still
finds the marker absent and again includes `--checksum` — contradicting
the claim that after the first invocation the marker is present and every
subsequent invocation omits the flag. -/
theorem c1_counterexample :
    (start_all ⟨some [], none⟩ false false "t0" idleBM).markerAfter = false ∧
    "--checksum" ∈
      (start_all ⟨some [], none⟩
        ((start_all ⟨some [], none⟩ false false "t0" idleBM).markerAfter)
        false "t1" idleBM).extras := by
  exact ⟨rfl, by decide⟩

/-- **C1** (amended).  When the persisted first-run marker is absent the
argument list passed to every launched run includes `--checksum`, and when
it is present the flag is omitted, regardless of the dry-run setting; the
marker is persisted by a first invocation exactly when the configured
backup-set list is non-empty (even if every set is skipped), so a first
invocation with an *empty* set list leaves the marker absent and the next
invocation includes the flag again. -/
theorem c1_first_run_checksum (c : Config) (marker dry : Bool) (t : String)
    (s0 : BMState) :
    ("--checksum" ∈ (start_all c marker dry t s0).extras ↔ marker = false) ∧
    ((start_all c marker dry t s0).markerAfter =
      (marker || !(getBackupSets c).isEmpty)) ∧
    ((start_all c marker dry t s0).spawned =
      ((getBackupSets c).filter validSet).map
        (fun b => ⟨nameOf b, localOf b, remoteOf b,
          (start_all c marker dry t s0).extras⟩)) := by
  refine ⟨?_, ?_, ?_⟩
  · cases marker
    · simp [start_all, (checksum_mem_buildExtras c dry).1]
    · simp [start_all, (checksum_mem_buildExtras c dry).2]
  · cases marker <;> simp [start_all]
  · have h := start_all_foldl_spawned (buildExtras c (!marker) dry) t
      (getBackupSets c) s0 [] []
    simpa [start_all] using h

/-! ### Claim C6 -/

/-- **C6.**  `start_all` launches exactly one run per configured set with
both `local` and `remote` non-empty, in configuration order, resetting
that name's status entry and log buffer; a set with an empty `local` or
`remote` contributes only a skip warning: it spawns nothing, and (as long
as no launched set shares its name) neither a status entry nor a log
buffer is created for its name. -/
theorem c6_skipped_sets (c : Config) (marker dry : Bool) (t : String)
    (s0 : BMState) :
    ((start_all c marker dry t s0).spawned =
      ((getBackupSets c).filter validSet).map
        (fun b => ⟨nameOf b, localOf b, remoteOf b,
          (start_all c marker dry t s0).extras⟩)) ∧
    ((start_all c marker dry t s0).warnings =
      ((getBackupSets c).filter (fun b => !validSet b)).map
        (fun b => "Skipping " ++ nameOf b ++ ": missing local or remote path")) ∧
    (∀ n, (start_all c marker dry t s0).state.status n =
      if n ∈ ((getBackupSets c).filter validSet).map nameOf
      then some (initStatusEntry t) else s0.status n) ∧
    (∀ n, (start_all c marker dry t s0).state.logs n =
      if n ∈ ((getBackupSets c).filter validSet).map nameOf
      then some ([] : List String) else s0.logs n) ∧
    (∀ b ∈ getBackupSets c, validSet b = false →
      nameOf b ∉ ((getBackupSets c).filter validSet).map nameOf →
      (start_all c marker dry t s0).state.status (nameOf b) =
          s0.status (nameOf b) ∧
      (start_all c marker dry t s0).state.logs (nameOf b) =
          s0.logs (nameOf b) ∧
      ∀ r ∈ (start_all c marker dry t s0).spawned, r.name ≠ nameOf b) := by
  have hsp := start_all_foldl_spawned (buildExtras c (!marker) dry) t
    (getBackupSets c) s0 [] []
  have hws := start_all_foldl_warnings (buildExtras c (!marker) dry) t
    (getBackupSets c) s0 [] []
  have hst := start_all_foldl_status (buildExtras c (!marker) dry) t
    (getBackupSets c) s0 [] []
  have hlg := start_all_foldl_logs (buildExtras c (!marker) dry) t
    (getBackupSets c) s0 [] []
  refine ⟨by simpa [start_all] using hsp, by simpa [start_all] using hws,
    fun n => by simpa [start_all] using hst n,
    fun n => by simpa [start_all] using hlg n, ?_⟩
  intro b _ _ hn
  refine ⟨?_, ?_, ?_⟩
  · have := hst (nameOf b)
    simpa [start_all, if_neg hn] using this
  · have := hlg (nameOf b)
    simpa [start_all, if_neg hn] using this
  · intro r hr hrb
    have hsp2 : (start_all c marker dry t s0).spawned =
        ((getBackupSets c).filter validSet).map
          (fun b => (⟨nameOf b, localOf b, remoteOf b,
            (start_all c marker dry t s0).extras⟩ : SpawnedRun)) := by
      simpa [start_all] using hsp
    have hr2 := hr
    rw [hsp2] at hr2
    obtain ⟨b2, hb2, hb2e⟩ := List.mem_map.mp hr2
    apply hn
    rw [← hrb, ← hb2e]
    exact List.mem_map_of_mem nameOf hb2

/-- **C6** (witness): with one valid set `A` and one set `B` missing its
source path, `start_all` creates no status entry and no log buffer for
`B` and spawns no run named `B`. -/
theorem c6_witness :
    (start_all ⟨some [⟨some "A", some "/a", some "r:x"⟩,
        ⟨some "B", none, some "r:y"⟩], none⟩
      false false "t0" idleBM).state.status "B" = none ∧
    (start_all ⟨some [⟨some "A", some "/a", some "r:x"⟩,
        ⟨some "B", none, some "r:y"⟩], none⟩
      false false "t0" idleBM).state.logs "B" = none ∧
    ∀ r ∈ (start_all ⟨some [⟨some "A", some "/a", some "r:x"⟩,
        ⟨some "B", none, some "r:y"⟩], none⟩
      false false "t0" idleBM).spawned, r.name ≠ "B" := by
  have h := (c6_skipped_sets ⟨some [⟨some "A", some "/a", some "r:x"⟩,
      ⟨some "B", none, some "r:y"⟩], none⟩ false false "t0" idleBM).2.2.2.2
    ⟨some "B", none, some "r:y"⟩ (by decide) (by decide) (by decide)
  exact ⟨h.1, h.2.1, h.2.2⟩

end RcloneBackup
